import Mathlib

/-!
Shallow embedding of the tag retention policy engine of
src/dockerhub_cleanup.py, together with theorems checking the
natural-language specification against it.

Conventions of the embedding:
* Python `datetime` values are modelled by `PyDateTime` (naive UTC instants;
  the real constructor validates field ranges, and every value produced here
  comes from the validating parser or from calendar arithmetic).
* Python exceptions raised while classifying (`ValueError` from a failed
  timestamp parse, `AttributeError` on a missing required timestamp,
  `OverflowError` from out-of-range date arithmetic) are modelled by
  `Except PyError`.
* Python's `list.sort(key=..., reverse=True)` is a stable descending sort;
  it is modelled by the stable insertion sort `sortByDesc`.
* Python's insertion-ordered `dict` `preserved_reasons` is modelled by an
  association list with unique keys (`alookup`, `condInsert`, `dictSet`).
* The status strings are exactly the source's: "PRESERVED" and "TO DELETE";
  the spec's abstract label TO_DELETE corresponds to "TO DELETE".
-/

/-- Model of a (naive, UTC) Python `datetime` value. -/
structure PyDateTime where
  year : Nat
  month : Nat
  day : Nat
  hour : Nat
  minute : Nat
  second : Nat
  microsecond : Nat
deriving DecidableEq, Repr

/-- Python `datetime` comparison: lexicographic on the fields. -/
def dtLtB (a b : PyDateTime) : Bool :=
  decide (a.year < b.year ∨ (a.year = b.year ∧ (a.month < b.month ∨ (a.month = b.month ∧
    (a.day < b.day ∨ (a.day = b.day ∧ (a.hour < b.hour ∨ (a.hour = b.hour ∧
    (a.minute < b.minute ∨ (a.minute = b.minute ∧ (a.second < b.second ∨ (a.second = b.second ∧
    a.microsecond < b.microsecond))))))))))))

/-- Value of an ASCII digit character. -/
def digitVal (c : Char) : Option Nat :=
  if '0' ≤ c ∧ c ≤ '9' then some (c.toNat - '0'.toNat) else none

/-- Two-digit decimal number. -/
def digit2 (a b : Char) : Option Nat := do
  let x ← digitVal a
  let y ← digitVal b
  pure (10 * x + y)

/-- Four-digit decimal number. -/
def digit4 (a b c d : Char) : Option Nat := do
  let x ← digit2 a b
  let y ← digit2 c d
  pure (100 * x + y)

/-- Gregorian leap-year test, as used by Python's `datetime`. -/
def isLeapYear (y : Nat) : Bool := (y % 4 == 0 && y % 100 != 0) || y % 400 == 0

/-- Length of a month, as validated by Python's `datetime` constructor. -/
def daysInMonth (y m : Nat) : Nat :=
  if m = 2 then (if isLeapYear y then 29 else 28)
  else if m = 4 ∨ m = 6 ∨ m = 9 ∨ m = 11 then 30 else 31

/-- Model of `datetime.fromisoformat` restricted to the shape
`YYYY-MM-DD?HH:MM:SS.ffffff` that `parse_docker_date` always hands it
(the separator between date and time may be any single character, as in
CPython; the field ranges are the ones `datetime` validates). -/
def fromIso : List Char → Option PyDateTime
  | [y1, y2, y3, y4, h1, mo1, mo2, h2, d1, d2, _sep, hh1, hh2, c1, mi1, mi2, c2, s1, s2, dot,
     f1, f2, f3, f4, f5, f6] =>
    if h1 = '-' ∧ h2 = '-' ∧ c1 = ':' ∧ c2 = ':' ∧ dot = '.' then
      match digit4 y1 y2 y3 y4, digit2 mo1 mo2, digit2 d1 d2, digit2 hh1 hh2,
            digit2 mi1 mi2, digit2 s1 s2, digit4 f1 f2 f3 f4, digit2 f5 f6 with
      | some y, some mo, some d, some hh, some mi, some s, some fhi, some flo =>
        if 1 ≤ y ∧ 1 ≤ mo ∧ mo ≤ 12 ∧ 1 ≤ d ∧ d ≤ daysInMonth y mo ∧ hh ≤ 23 ∧ mi ≤ 59 ∧ s ≤ 59
        then some ⟨y, mo, d, hh, mi, s, 100 * fhi + flo⟩
        else none
      | _, _, _, _, _, _, _, _ => none
    else none
  | _ => none

/-- Python `date_str.rstrip("Z")`: drop every trailing `Z`. -/
def stripZ (l : List Char) : List Char :=
  (l.reverse.dropWhile (fun c => c == 'Z')).reverse

/-- Python `fractional.ljust(6, "0")[:6]`. -/
def pad6Trunc (frac : List Char) : List Char :=
  (frac ++ List.replicate (6 - frac.length) '0').take 6

/-- The string manipulation of `parse_docker_date` (src/dockerhub_cleanup.py:11-21):
strip trailing `Z`, split at the first dot, left-justify the fractional part
with zeros to six characters and truncate it to six characters, or use
`000000` when there is no dot. -/
def dockerNormalize (l : List Char) : List Char :=
  let l2 := stripZ l
  if l2.contains '.' then
    let main_part := l2.takeWhile (fun c => c != '.')
    let fractional := (l2.dropWhile (fun c => c != '.')).tail
    main_part ++ '.' :: pad6Trunc fractional
  else l2 ++ '.' :: "000000".data

/-- `parse_docker_date` (src/dockerhub_cleanup.py:11-21). -/
def parseDockerDate (s : String) : Option PyDateTime :=
  fromIso (dockerNormalize s.data)

/-- Modelled from the spec, section 4.1 (used only to compare against
`dockerNormalize`): strip the trailing zone marker; if a fractional-seconds
component is present, truncate anything beyond 6 digits and right-pad with
zeros to exactly 6 digits; if absent, treat fractional seconds as zero. -/
def specNormalize (l : List Char) : List Char :=
  let l2 := stripZ l
  if l2.contains '.' then
    let main_part := l2.takeWhile (fun c => c != '.')
    let fractional := (l2.dropWhile (fun c => c != '.')).tail
    main_part ++ '.' :: (fractional.take 6 ++ List.replicate (6 - min 6 fractional.length) '0')
  else l2 ++ '.' :: List.replicate 6 '0'

/-- Days since 1970-01-01 of a proleptic Gregorian date (standard civil
calendar arithmetic, used to model Python `datetime - timedelta(days=n)`). -/
def daysFromCivil (y m d : Int) : Int :=
  let y2 := y - (if m ≤ 2 then 1 else 0)
  let era := Int.fdiv y2 400
  let yoe := y2 - era * 400
  let mp := Int.fmod (m + 9) 12
  let doy := Int.fdiv (153 * mp + 2) 5 + d - 1
  let doe := yoe * 365 + Int.fdiv yoe 4 - Int.fdiv yoe 100 + doy
  era * 146097 + doe - 719468

/-- Inverse of `daysFromCivil`. -/
def civilFromDays (zz : Int) : Int × Int × Int :=
  let z := zz + 719468
  let era := Int.fdiv z 146097
  let doe := z - era * 146097
  let yoe := Int.fdiv (doe - Int.fdiv doe 1460 + Int.fdiv doe 36524 - Int.fdiv doe 146096) 365
  let y := yoe + era * 400
  let doy := doe - (365 * yoe + Int.fdiv yoe 4 - Int.fdiv yoe 100)
  let mp := Int.fdiv (5 * doy + 2) 153
  let d := doy - Int.fdiv (153 * mp + 2) 5 + 1
  let m := if mp < 10 then mp + 3 else mp - 9
  (if m ≤ 2 then y + 1 else y, m, d)

/-- Python `dt - timedelta(days=days)`: shifts the date, keeps the time of
day, and raises `OverflowError` (here: `none`) when the result leaves the
year range 1..9999 supported by `datetime`. -/
def dtSubDays (dt : PyDateTime) (days : Int) : Option PyDateTime :=
  let z := daysFromCivil (dt.year : Int) (dt.month : Int) (dt.day : Int) - days
  let c := civilFromDays z
  if 1 ≤ c.1 ∧ c.1 ≤ 9999 then
    some { dt with year := c.1.toNat, month := c.2.1.toNat, day := c.2.2.toNat }
  else none

/-- Zero-pad a number to two digits. -/
def pad2 (n : Nat) : String := if n < 10 then "0" ++ toString n else toString n

/-- Zero-pad a number to four digits. -/
def pad4 (n : Nat) : String :=
  if n < 10 then "000" ++ toString n
  else if n < 100 then "00" ++ toString n
  else if n < 1000 then "0" ++ toString n
  else toString n

/-- Zero-pad a number to six digits. -/
def pad6 (n : Nat) : String :=
  if n < 10 then "00000" ++ toString n
  else if n < 100 then "0000" ++ toString n
  else if n < 1000 then "000" ++ toString n
  else if n < 10000 then "00" ++ toString n
  else if n < 100000 then "0" ++ toString n
  else toString n

/-- Python `datetime.isoformat()`: `YYYY-MM-DDTHH:MM:SS`, with the
`.ffffff` fraction appended only when the microsecond field is nonzero. -/
def isoformat (dt : PyDateTime) : String :=
  pad4 dt.year ++ "-" ++ pad2 dt.month ++ "-" ++ pad2 dt.day ++ "T" ++
  pad2 dt.hour ++ ":" ++ pad2 dt.minute ++ ":" ++ pad2 dt.second ++
  (if dt.microsecond = 0 then "" else "." ++ pad6 dt.microsecond)

/-- A raw tag record as handed to `process_tags`: the fields the code reads
via `tag.get(...)`. Optional fields model keys that may be missing. -/
structure RawTag where
  name : String
  last_updated : Option String
  tag_last_pulled : Option String
deriving DecidableEq, Repr

/-- The dictionary built for each tag in the first loop of `process_tags`
(src/dockerhub_cleanup.py:62-76), before status and reason are attached. -/
structure ParsedTag where
  name : String
  last_updated_str : String
  last_updated_dt : PyDateTime
  last_pulled_str : Option String
  last_pulled_dt : Option PyDateTime
  original : RawTag
deriving DecidableEq, Repr

/-- A tag after the classification loop (src/dockerhub_cleanup.py:99-117)
has attached `status` and `reason`. -/
structure ClassifiedTag extends ParsedTag where
  status : String
  reason : String
deriving DecidableEq, Repr

/-- The Python exceptions that abort `process_tags`: a timestamp parse
failure (ValueError / AttributeError on a missing required timestamp), or
date arithmetic leaving the representable range (OverflowError). -/
inductive PyError where
  | malformedTimestamp
  | overflow
deriving DecidableEq, Repr

/-- The per-tag work of the first loop of `process_tags`
(src/dockerhub_cleanup.py:62-76): parse `last_updated` (required — a missing
or unparseable value raises), and parse `tag_last_pulled` unless it is
missing, empty (falsy) or the zero-value sentinel. -/
def parseRawTag (r : RawTag) : Except PyError ParsedTag :=
  match r.last_updated with
  | none => .error .malformedTimestamp
  | some lus =>
    match parseDockerDate lus with
    | none => .error .malformedTimestamp
    | some ludt =>
      match r.tag_last_pulled with
      | none => .ok ⟨r.name, lus, ludt, none, none, r⟩
      | some lps =>
        if lps = "" ∨ lps = "0001-01-01T00:00:00Z" then
          .ok ⟨r.name, lus, ludt, some lps, none, r⟩
        else
          match parseDockerDate lps with
          | none => .error .malformedTimestamp
          | some lpdt => .ok ⟨r.name, lus, ludt, some lps, some lpdt, r⟩

/-- The first loop of `process_tags` over the whole list; the first raised
exception aborts the whole call. -/
def parseAll : List RawTag → Except PyError (List ParsedTag)
  | [] => .ok []
  | r :: rs =>
    match parseRawTag r with
    | .error e => .error e
    | .ok p =>
      match parseAll rs with
      | .error e => .error e
      | .ok ps => .ok (p :: ps)

/-- Insert into a list sorted descending by `key`; a new element goes in
front of the first element whose key is not greater, so equal keys keep the
insertion (input) order. -/
def insertDescBy (key : α → PyDateTime) (t : α) : List α → List α
  | [] => [t]
  | u :: us =>
    if dtLtB (key t) (key u) then u :: insertDescBy key t us
    else t :: u :: us

/-- Stable descending sort: the model of
`processed.sort(key=lambda x: x["last_updated_dt"], reverse=True)`
(src/dockerhub_cleanup.py:79); CPython's sort is stable also with
`reverse=True`. -/
def sortByDesc (key : α → PyDateTime) : List α → List α
  | [] => []
  | t :: ts => insertDescBy key t (sortByDesc key ts)

/-- Lookup in the association-list model of the `preserved_reasons` dict. -/
def alookup (k : String) : List (String × String) → Option String
  | [] => none
  | p :: ps => if p.1 = k then some p.2 else alookup k ps

/-- Python `if name not in preserved_reasons: preserved_reasons[name] = v`. -/
def condInsert (k v : String) (d : List (String × String)) : List (String × String) :=
  if (alookup k d).isSome then d else d ++ [(k, v)]

/-- Python `preserved_reasons[name] = v` (unconditional dict assignment:
overwrite in place if present, append otherwise). -/
def dictSet (k v : String) (d : List (String × String)) : List (String × String) :=
  if (alookup k d).isSome then d.map (fun p => if p.1 = k then (k, v) else p)
  else d ++ [(k, v)]

/-- Loop `for tag in ts: if tag["name"] not in preserved_reasons: ... = v`. -/
def condInsertLoop (ts : List ParsedTag) (v : String) (d : List (String × String)) :
    List (String × String) :=
  ts.foldl (fun acc t => condInsert t.name v acc) d

/-- Loop `for tag in ts: preserved_reasons[tag["name"]] = v`. -/
def dictSetLoop (ts : List ParsedTag) (v : String) (d : List (String × String)) :
    List (String × String) :=
  ts.foldl (fun acc t => dictSet t.name v acc) d

/-- Python `name.startswith(pfx)`. -/
def isPrefixList : List Char → List Char → Bool
  | [], _ => true
  | _ :: _, [] => false
  | c :: cs, d :: ds => c == d && isPrefixList cs ds

/-- Python `s.startswith(pfx)`. -/
def pyStartsWith (s pfx : String) : Bool := isPrefixList pfx.data s.data

/-- Python slice `l[:n]`, including the negative-index semantics. -/
def pySliceTo (n : Int) (l : List α) : List α :=
  if 0 ≤ n then l.take n.toNat else l.take ((l.length : Int) + n).toNat

/-- One iteration of the `for prefix, count in preserve_rules.items()` loop
(src/dockerhub_cleanup.py:85-93). -/
def applyRule (sorted : List ParsedTag) (d : List (String × String))
    (pr : String × Option Int) : List (String × String) :=
  let matching := sorted.filter (fun t => pyStartsWith t.name pr.1)
  match pr.2 with
  | none => dictSetLoop matching ("preserved all for prefix \x27" ++ pr.1 ++ "\x27") d
  | some c =>
    condInsertLoop (pySliceTo c matching)
      ("top " ++ toString c ++ " for prefix \x27" ++ pr.1 ++ "\x27") d

/-- The tags the ranking part of a single preservation rule selects
(used only in theorem statements). -/
def ruleSelect (sorted : List ParsedTag) (pr : String × Option Int) : List ParsedTag :=
  let matching := sorted.filter (fun t => pyStartsWith t.name pr.1)
  match pr.2 with
  | none => matching
  | some c => pySliceTo c matching

/-- The `preserved_reasons` dict after lines 84-97 of
src/dockerhub_cleanup.py: the prefix rules when at least one is configured,
otherwise the global newest-N rule. -/
def buildPreserved (sorted : List ParsedTag) (global_preserve_last : Int)
    (rules : List (String × Option Int)) : List (String × String) :=
  match rules with
  | [] =>
    condInsertLoop (pySliceTo global_preserve_last sorted)
      ("top " ++ toString global_preserve_last ++ " newest tags") []
  | _ :: _ => rules.foldl (applyRule sorted) []

/-- Python `", ".join(reasons)`. -/
def joinComma : List String → String
  | [] => ""
  | [r] => r
  | r :: rs => r ++ ", " ++ joinComma rs

/-- The `reasons` list built for one tag in the classification loop
(src/dockerhub_cleanup.py:100-104): the ranking reason if the tag's name is
in `preserved_reasons`, then the recency-of-pull reason if the tag was
pulled on or after the cutoff. -/
def classifyReasons (pres : List (String × String)) (cutoff : PyDateTime)
    (retention_days : Int) (u : ParsedTag) : List String :=
  (match alookup u.name pres with
   | some r => [r]
   | none => []) ++
  (match u.last_pulled_dt with
   | some p =>
     if dtLtB p cutoff then []
     else ["pulled within retention (" ++ toString retention_days ++ " days)"]
   | none => [])

/-- The classification of one tag (src/dockerhub_cleanup.py:99-116). -/
def classifyOne (cutoff : PyDateTime) (retention_days : Int)
    (pres : List (String × String)) (u : ParsedTag) : ClassifiedTag :=
  if (classifyReasons pres cutoff retention_days u).isEmpty then
    { toParsedTag := u, status := "TO DELETE",
      reason :=
        match u.last_pulled_dt with
        | none => "never pulled"
        | some _ => "not pulled since " ++ isoformat cutoff }
  else
    { toParsedTag := u, status := "PRESERVED",
      reason := joinComma (classifyReasons pres cutoff retention_days u) }

/-- `process_tags` (src/dockerhub_cleanup.py:51-118), with the call
`datetime.utcnow()` made explicit as the parameter `now`. -/
def processTags (now : PyDateTime) (tags : List RawTag) (retention_days : Int)
    (global_preserve_last : Int) (rules : List (String × Option Int)) :
    Except PyError (List ClassifiedTag) :=
  match dtSubDays now retention_days with
  | none => .error .overflow
  | some cutoff =>
    match parseAll tags with
    | .error e => .error e
    | .ok parsed =>
      let sorted := sortByDesc ParsedTag.last_updated_dt parsed
      let pres := buildPreserved sorted global_preserve_last rules
      .ok (sorted.map (classifyOne cutoff retention_days pres))

/-- ASCII lower-casing of one character (Python `str.lower` on ASCII). -/
def asciiLower (c : Char) : Char :=
  if 'A' ≤ c ∧ c ≤ 'Z' then Char.ofNat (c.toNat + 32) else c

/-- The critical-name criterion of the spec: `latest`, `prod`, `production`,
case-insensitively. (The source has no corresponding code; this definition
exists to state what the spec asserts about such names.) -/
def isCriticalName (s : String) : Bool :=
  let l := s.data.map asciiLower
  l = "latest".data || l = "prod".data || l = "production".data

/-- The recency-of-pull test of the classification loop
(src/dockerhub_cleanup.py:103), as a Bool on the optional pull instant. -/
def pulledRecentlyB (cutoff : PyDateTime) : Option PyDateTime → Bool
  | none => false
  | some p => !(dtLtB p cutoff)

/-! ### Concrete example data used by the witnesses -/

/-- A concrete run instant: 2024-03-15T00:00:00. -/
def nowW : PyDateTime := ⟨2024, 3, 15, 0, 0, 0, 0⟩

/-- The retention cutoff 90 days before `nowW`: 2023-12-16T00:00:00. -/
def cutoffW : PyDateTime := ⟨2023, 12, 16, 0, 0, 0, 0⟩

/-- A recently updated, never pulled tag named `latest`. -/
def rawLatest : RawTag := ⟨"latest", some "2024-03-01T00:00:00Z", none⟩

/-- The parsed form of `rawLatest`. -/
def parsedLatest : ParsedTag :=
  ⟨"latest", "2024-03-01T00:00:00Z", ⟨2024, 3, 1, 0, 0, 0, 0⟩, none, none, rawLatest⟩

/-- The classification of `rawLatest` under the global newest-10 rule. -/
def outLatest : ClassifiedTag := ⟨parsedLatest, "PRESERVED", "top 10 newest tags"⟩

/-- A tag both recently updated and recently pulled. -/
def rawApp : RawTag := ⟨"app", some "2024-03-01T00:00:00Z", some "2024-03-10T00:00:00Z"⟩

/-- The parsed form of `rawApp`. -/
def parsedApp : ParsedTag :=
  ⟨"app", "2024-03-01T00:00:00Z", ⟨2024, 3, 1, 0, 0, 0, 0⟩, some "2024-03-10T00:00:00Z",
    some ⟨2024, 3, 10, 0, 0, 0, 0⟩, rawApp⟩

/-- The classification of `rawApp`: exempted by both active rules. -/
def outApp : ClassifiedTag :=
  ⟨parsedApp, "PRESERVED", "top 10 newest tags, pulled within retention (90 days)"⟩

/-- A stale, never pulled tag. -/
def rawOld1 : RawTag := ⟨"old1", some "2020-01-01T00:00:00Z", none⟩

/-- The parsed form of `rawOld1`. -/
def parsedOld1 : ParsedTag :=
  ⟨"old1", "2020-01-01T00:00:00Z", ⟨2020, 1, 1, 0, 0, 0, 0⟩, none, none, rawOld1⟩

/-- The classification of `rawOld1` when no rule exempts it. -/
def outOld1 : ClassifiedTag := ⟨parsedOld1, "TO DELETE", "never pulled"⟩

/-- A stale tag last pulled long before the cutoff. -/
def rawOld2 : RawTag := ⟨"old2", some "2020-01-01T00:00:00Z", some "2020-02-01T00:00:00Z"⟩

/-- The parsed form of `rawOld2`. -/
def parsedOld2 : ParsedTag :=
  ⟨"old2", "2020-01-01T00:00:00Z", ⟨2020, 1, 1, 0, 0, 0, 0⟩, some "2020-02-01T00:00:00Z",
    some ⟨2020, 2, 1, 0, 0, 0, 0⟩, rawOld2⟩

/-- The classification of `rawOld2` when no rule exempts it. -/
def outOld2 : ClassifiedTag := ⟨parsedOld2, "TO DELETE", "not pulled since 2023-12-16T00:00:00"⟩

/-- Three tags, two of which tie on `last_updated`. -/
def rawA : RawTag := ⟨"a", some "2024-01-01T00:00:00Z", none⟩

/-- Same instant as `rawA`, written with an explicit fraction. -/
def rawB : RawTag := ⟨"b", some "2024-01-01T00:00:00.000000Z", none⟩

/-- The newest of the three tags `rawA`, `rawB`, `rawC`. -/
def rawC : RawTag := ⟨"c", some "2024-02-01T00:00:00Z", none⟩

/-- The parsed form of `rawA`. -/
def parsedA : ParsedTag :=
  ⟨"a", "2024-01-01T00:00:00Z", ⟨2024, 1, 1, 0, 0, 0, 0⟩, none, none, rawA⟩

/-- The parsed form of `rawB`; its instant equals that of `parsedA`. -/
def parsedB : ParsedTag :=
  ⟨"b", "2024-01-01T00:00:00.000000Z", ⟨2024, 1, 1, 0, 0, 0, 0⟩, none, none, rawB⟩

/-- The parsed form of `rawC`. -/
def parsedC : ParsedTag :=
  ⟨"c", "2024-02-01T00:00:00Z", ⟨2024, 2, 1, 0, 0, 0, 0⟩, none, none, rawC⟩

/-- The classification of `rawA` under a zero global count. -/
def outA : ClassifiedTag := ⟨parsedA, "TO DELETE", "never pulled"⟩

/-- The classification of `rawB` under a zero global count. -/
def outB : ClassifiedTag := ⟨parsedB, "TO DELETE", "never pulled"⟩

/-- The classification of `rawC` under a zero global count. -/
def outC : ClassifiedTag := ⟨parsedC, "TO DELETE", "never pulled"⟩

/-- A fresh tag. -/
def rawX : RawTag := ⟨"x", some "2024-03-01T00:00:00Z", none⟩

/-- The parsed form of `rawX`. -/
def parsedX : ParsedTag :=
  ⟨"x", "2024-03-01T00:00:00Z", ⟨2024, 3, 1, 0, 0, 0, 0⟩, none, none, rawX⟩

/-- The classification of `rawX` under the global newest-1 rule. -/
def outX : ClassifiedTag := ⟨parsedX, "PRESERVED", "top 1 newest tags"⟩

/-- A stale tag whose pull timestamp is the zero-value sentinel. -/
def rawY : RawTag := ⟨"y", some "2020-01-01T00:00:00Z", some "0001-01-01T00:00:00Z"⟩

/-- The parsed form of `rawY`: the sentinel parses to an absent instant. -/
def parsedY : ParsedTag :=
  ⟨"y", "2020-01-01T00:00:00Z", ⟨2020, 1, 1, 0, 0, 0, 0⟩, some "0001-01-01T00:00:00Z",
    none, rawY⟩

/-- The classification of `rawY` when no rule exempts it. -/
def outY : ClassifiedTag := ⟨parsedY, "TO DELETE", "never pulled"⟩

/-- A single fresh tag for the global-rule witness. -/
def rawN : RawTag := ⟨"n", some "2024-03-01T00:00:00Z", none⟩

/-- The parsed form of `rawN`. -/
def parsedN : ParsedTag :=
  ⟨"n", "2024-03-01T00:00:00Z", ⟨2024, 3, 1, 0, 0, 0, 0⟩, none, none, rawN⟩

/-- The classification of `rawN` under the global newest-3 rule. -/
def outNTop3 : ClassifiedTag := ⟨parsedN, "PRESERVED", "top 3 newest tags"⟩

/-- An old tag pulled within the retention window. -/
def rawAged : RawTag := ⟨"aged", some "2020-01-01T00:00:00Z", some "2024-03-10T00:00:00Z"⟩

/-- The parsed form of `rawAged`. -/
def parsedAged : ParsedTag :=
  ⟨"aged", "2020-01-01T00:00:00Z", ⟨2020, 1, 1, 0, 0, 0, 0⟩, some "2024-03-10T00:00:00Z",
    some ⟨2024, 3, 10, 0, 0, 0, 0⟩, rawAged⟩

/-- The classification of `rawAged`: exempted by the recency rule alone. -/
def outAged : ClassifiedTag := ⟨parsedAged, "PRESERVED", "pulled within retention (90 days)"⟩

/-- Tags for the prefix-rule witness. -/
def rawPr1 : RawTag := ⟨"pr-1", some "2024-03-01T00:00:00Z", none⟩

/-- Second tag matching the `pr-` name pattern. -/
def rawPr2 : RawTag := ⟨"pr-2", some "2024-02-01T00:00:00Z", none⟩

/-- A tag not matching the `pr-` name pattern. -/
def rawZz : RawTag := ⟨"zz", some "2024-01-01T00:00:00Z", none⟩

/-- The parsed form of `rawPr1`. -/
def parsedPr1 : ParsedTag :=
  ⟨"pr-1", "2024-03-01T00:00:00Z", ⟨2024, 3, 1, 0, 0, 0, 0⟩, none, none, rawPr1⟩

/-- The parsed form of `rawPr2`. -/
def parsedPr2 : ParsedTag :=
  ⟨"pr-2", "2024-02-01T00:00:00Z", ⟨2024, 2, 1, 0, 0, 0, 0⟩, none, none, rawPr2⟩

/-- The parsed form of `rawZz`. -/
def parsedZz : ParsedTag :=
  ⟨"zz", "2024-01-01T00:00:00Z", ⟨2024, 1, 1, 0, 0, 0, 0⟩, none, none, rawZz⟩

/-- A tag whose required timestamp does not parse. -/
def rawBad : RawTag := ⟨"bad", some "not-a-date", none⟩

/-! ### Helper lemmas about the datetime order -/

theorem dtLtB_irrefl (a : PyDateTime) : dtLtB a a = false := by
  simp only [dtLtB, decide_eq_false_iff_not]
  omega

theorem dtLtB_asymm {a b : PyDateTime} (h : dtLtB a b = true) : dtLtB b a = false := by
  simp only [dtLtB, decide_eq_true_eq] at h
  simp only [dtLtB, decide_eq_false_iff_not]
  omega

theorem dtLtB_trans {a b c : PyDateTime} (h1 : dtLtB a b = true) (h2 : dtLtB b c = true) :
    dtLtB a c = true := by
  simp only [dtLtB, decide_eq_true_eq] at h1 h2 ⊢
  omega

theorem dtLtB_negtrans {a b c : PyDateTime} (h1 : dtLtB a b = false) (h2 : dtLtB b c = false) :
    dtLtB a c = false := by
  simp only [dtLtB, decide_eq_false_iff_not] at h1 h2 ⊢
  omega

theorem dtLtB_conn {a b : PyDateTime} (h1 : dtLtB a b = false) (h2 : dtLtB b a = false) :
    a = b := by
  cases a
  cases b
  simp only [dtLtB, decide_eq_false_iff_not] at h1 h2
  simp only [PyDateTime.mk.injEq]
  omega

theorem dtLtB_false_cases {a b : PyDateTime} (h : dtLtB a b = false) :
    dtLtB b a = true ∨ a = b := by
  cases hba : dtLtB b a
  · exact Or.inr (dtLtB_conn h hba)
  · exact Or.inl rfl

/-! ### Helper lemmas about the stable descending sort -/

theorem insertDescBy_perm (key : α → PyDateTime) (t : α) (l : List α) :
    List.Perm (insertDescBy key t l) (t :: l) := by
  induction l with
  | nil => exact List.Perm.refl _
  | cons u us ih =>
    simp only [insertDescBy]
    split
    · exact (List.Perm.cons u ih).trans (List.Perm.swap t u us)
    · exact List.Perm.refl _

theorem sortByDesc_perm (key : α → PyDateTime) (l : List α) :
    List.Perm (sortByDesc key l) l := by
  induction l with
  | nil => exact List.Perm.refl _
  | cons t ts ih => exact (insertDescBy_perm key t _).trans (List.Perm.cons t ih)

theorem insertDescBy_pairwise (key : α → PyDateTime) (t : α) (l : List α)
    (h : List.Pairwise (fun a b => dtLtB (key a) (key b) = false) l) :
    List.Pairwise (fun a b => dtLtB (key a) (key b) = false) (insertDescBy key t l) := by
  induction l with
  | nil => simp [insertDescBy]
  | cons u us ih =>
    rcases h with _ | ⟨hu, hus⟩
    simp only [insertDescBy]
    split
    next hlt =>
      constructor
      · intro b hb
        rcases List.mem_cons.mp ((insertDescBy_perm key t us).mem_iff.mp hb) with rfl | hbus
        · exact dtLtB_asymm hlt
        · exact hu b hbus
      · exact ih hus
    next hlt =>
      have hlt' : dtLtB (key t) (key u) = false := by
        cases hx : dtLtB (key t) (key u)
        · rfl
        · exact absurd hx hlt
      constructor
      · intro b hb
        rcases List.mem_cons.mp hb with rfl | hbus
        · exact hlt'
        · exact dtLtB_negtrans hlt' (hu b hbus)
      · exact List.Pairwise.cons hu hus

theorem sortByDesc_pairwise (key : α → PyDateTime) (l : List α) :
    List.Pairwise (fun a b => dtLtB (key a) (key b) = false) (sortByDesc key l) := by
  induction l with
  | nil => exact List.Pairwise.nil
  | cons t ts ih => exact insertDescBy_pairwise key t _ ih

theorem insertDescBy_stable (key : β → PyDateTime) (t : Nat × β) (l : List (Nat × β))
    (hfresh : ∀ u ∈ l, t.1 < u.1)
    (h : List.Pairwise (fun x y =>
      dtLtB (key y.2) (key x.2) = true ∨ (key x.2 = key y.2 ∧ x.1 < y.1)) l) :
    List.Pairwise (fun x y =>
      dtLtB (key y.2) (key x.2) = true ∨ (key x.2 = key y.2 ∧ x.1 < y.1))
      (insertDescBy (fun x => key x.2) t l) := by
  induction l with
  | nil => simp [insertDescBy]
  | cons u us ih =>
    rcases h with _ | ⟨hu, hus⟩
    have hfresh_us : ∀ v ∈ us, t.1 < v.1 := fun v hv => hfresh v (List.mem_cons_of_mem u hv)
    simp only [insertDescBy]
    split
    next hlt =>
      constructor
      · intro b hb
        rcases List.mem_cons.mp
            ((insertDescBy_perm (fun x => key x.2) t us).mem_iff.mp hb) with rfl | hbus
        · exact Or.inl hlt
        · exact hu b hbus
      · exact ih hfresh_us hus
    next hlt =>
      have hlt' : dtLtB (key t.2) (key u.2) = false := by
        cases hx : dtLtB (key t.2) (key u.2)
        · rfl
        · exact absurd hx hlt
      constructor
      · intro b hb
        rcases List.mem_cons.mp hb with rfl | hbus
        · rcases dtLtB_false_cases hlt' with hgt | heq
          · exact Or.inl hgt
          · exact Or.inr ⟨heq, hfresh b (List.mem_cons_self b us)⟩
        · rcases hu b hbus with hub | ⟨hequb, _⟩
          · rcases dtLtB_false_cases hlt' with hut | heq
            · exact Or.inl (dtLtB_trans hub hut)
            · exact Or.inl (heq ▸ hub)
          · rcases dtLtB_false_cases hlt' with hut | heq
            · exact Or.inl (hequb ▸ hut)
            · exact Or.inr ⟨heq.trans hequb, hfresh b (List.mem_cons_of_mem u hbus)⟩
      · exact List.Pairwise.cons hu hus

theorem sortByDesc_stable (key : β → PyDateTime) (l : List (Nat × β))
    (hidx : List.Pairwise (fun x y => x.1 < y.1) l) :
    List.Pairwise (fun x y =>
      dtLtB (key y.2) (key x.2) = true ∨ (key x.2 = key y.2 ∧ x.1 < y.1))
      (sortByDesc (fun x => key x.2) l) := by
  induction l with
  | nil => exact List.Pairwise.nil
  | cons x xs ih =>
    rcases hidx with _ | ⟨hx, hxs⟩
    exact insertDescBy_stable key x _
      (fun u hu => hx u ((sortByDesc_perm (fun x => key x.2) xs).mem_iff.mp hu))
      (ih hxs)

theorem insertDescBy_map_snd (key : β → PyDateTime) (t : Nat × β) (l : List (Nat × β)) :
    (insertDescBy (fun x => key x.2) t l).map Prod.snd =
      insertDescBy key t.2 (l.map Prod.snd) := by
  induction l with
  | nil => rfl
  | cons u us ih =>
    cases hc : dtLtB (key t.2) (key u.2) <;>
      simp [insertDescBy, hc, ih]

theorem sortByDesc_map_snd (key : β → PyDateTime) (l : List (Nat × β)) :
    (sortByDesc (fun x => key x.2) l).map Prod.snd = sortByDesc key (l.map Prod.snd) := by
  induction l with
  | nil => rfl
  | cons x xs ih =>
    simp only [sortByDesc, List.map_cons]
    rw [insertDescBy_map_snd, ih]

theorem mem_enumFrom_le (l : List β) :
    ∀ (n : Nat) (p : Nat × β), p ∈ List.enumFrom n l → n ≤ p.1 := by
  induction l with
  | nil => intro n p h; simp [List.enumFrom] at h
  | cons b bs ih =>
    intro n p h
    rcases List.mem_cons.mp h with rfl | h'
    · exact Nat.le_refl n
    · exact Nat.le_of_succ_le (ih (n + 1) p h')

theorem enumFrom_pairwise (l : List β) :
    ∀ n : Nat, List.Pairwise (fun x y => x.1 < y.1) (List.enumFrom n l) := by
  induction l with
  | nil => intro n; exact List.Pairwise.nil
  | cons b bs ih =>
    intro n
    constructor
    · intro p hp
      exact Nat.lt_of_lt_of_le (Nat.lt_succ_self n) (mem_enumFrom_le bs (n + 1) p hp)
    · exact ih (n + 1)

theorem enumFrom_map_snd (l : List β) :
    ∀ n : Nat, (List.enumFrom n l).map Prod.snd = l := by
  induction l with
  | nil => intro n; rfl
  | cons b bs ih =>
    intro n
    simp only [List.enumFrom, List.map_cons]
    rw [ih (n + 1)]

/-! ### Helper lemmas about the preserved-reasons dictionary -/

theorem alookup_append_single (k k0 v : String) (d : List (String × String)) :
    alookup k (d ++ [(k0, v)]) =
      match alookup k d with
      | some r => some r
      | none => if k0 = k then some v else none := by
  induction d with
  | nil => rfl
  | cons p ps ih =>
    by_cases hp : p.1 = k <;> simp [alookup, hp, ih]

theorem alookup_condInsert_isSome (k k0 v : String) (d : List (String × String)) :
    (alookup k (condInsert k0 v d)).isSome = true ↔
      (alookup k d).isSome = true ∨ k0 = k := by
  unfold condInsert
  by_cases h : (alookup k0 d).isSome = true
  · rw [if_pos h]
    constructor
    · exact fun h2 => Or.inl h2
    · rintro (h2 | rfl)
      · exact h2
      · exact h
  · rw [if_neg h]
    rw [alookup_append_single]
    cases hk : alookup k d with
    | some r => simp
    | none =>
      by_cases hk0 : k0 = k <;> simp [hk0]

theorem alookup_map_overwrite (k k0 v : String) (d : List (String × String)) :
    (alookup k (d.map (fun p => if p.1 = k0 then (k0, v) else p))).isSome =
      (alookup k d).isSome := by
  induction d with
  | nil => rfl
  | cons p ps ih =>
    by_cases hp : p.1 = k0
    · by_cases hk : p.1 = k
      · simp [alookup, hp, hk, hp ▸ hk]
      · have : ¬ k0 = k := fun he => hk (hp.trans he)
        simp [alookup, hp, hk, this, ih]
    · simp only [List.map_cons, if_neg hp]
      by_cases hk : p.1 = k <;> simp [alookup, hk, ih]

theorem alookup_dictSet_isSome (k k0 v : String) (d : List (String × String)) :
    (alookup k (dictSet k0 v d)).isSome = true ↔
      (alookup k d).isSome = true ∨ k0 = k := by
  unfold dictSet
  by_cases h : (alookup k0 d).isSome = true
  · rw [if_pos h, alookup_map_overwrite]
    constructor
    · exact fun h2 => Or.inl h2
    · rintro (h2 | rfl)
      · exact h2
      · exact h
  · rw [if_neg h, alookup_append_single]
    cases hk : alookup k d with
    | some r => simp
    | none =>
      by_cases hk0 : k0 = k <;> simp [hk0]

theorem alookup_condInsertLoop_isSome (ts : List ParsedTag) (v k : String) :
    ∀ d : List (String × String),
      (alookup k (condInsertLoop ts v d)).isSome = true ↔
        (alookup k d).isSome = true ∨ k ∈ ts.map ParsedTag.name := by
  induction ts with
  | nil => intro d; simp [condInsertLoop]
  | cons t ts ih =>
    intro d
    have step : condInsertLoop (t :: ts) v d = condInsertLoop ts v (condInsert t.name v d) := rfl
    rw [step, ih, alookup_condInsert_isSome]
    simp only [List.map_cons, List.mem_cons]
    constructor
    · rintro ((h | rfl) | h)
      · exact Or.inl h
      · exact Or.inr (Or.inl rfl)
      · exact Or.inr (Or.inr h)
    · rintro (h | (rfl | h))
      · exact Or.inl (Or.inl h)
      · exact Or.inl (Or.inr rfl)
      · exact Or.inr h

theorem alookup_dictSetLoop_isSome (ts : List ParsedTag) (v k : String) :
    ∀ d : List (String × String),
      (alookup k (dictSetLoop ts v d)).isSome = true ↔
        (alookup k d).isSome = true ∨ k ∈ ts.map ParsedTag.name := by
  induction ts with
  | nil => intro d; simp [dictSetLoop]
  | cons t ts ih =>
    intro d
    have step : dictSetLoop (t :: ts) v d = dictSetLoop ts v (dictSet t.name v d) := rfl
    rw [step, ih, alookup_dictSet_isSome]
    simp only [List.map_cons, List.mem_cons]
    constructor
    · rintro ((h | rfl) | h)
      · exact Or.inl h
      · exact Or.inr (Or.inl rfl)
      · exact Or.inr (Or.inr h)
    · rintro (h | (rfl | h))
      · exact Or.inl (Or.inl h)
      · exact Or.inl (Or.inr rfl)
      · exact Or.inr h

theorem alookup_applyRule_isSome (sorted : List ParsedTag) (d : List (String × String))
    (pr : String × Option Int) (k : String) :
    (alookup k (applyRule sorted d pr)).isSome = true ↔
      (alookup k d).isSome = true ∨ k ∈ (ruleSelect sorted pr).map ParsedTag.name := by
  unfold applyRule ruleSelect
  cases pr.2 with
  | none => exact alookup_dictSetLoop_isSome _ _ _ _
  | some c => exact alookup_condInsertLoop_isSome _ _ _ _

theorem alookup_foldl_applyRule_isSome (sorted : List ParsedTag) (k : String) :
    ∀ (rules : List (String × Option Int)) (d : List (String × String)),
      (alookup k (rules.foldl (applyRule sorted) d)).isSome = true ↔
        (alookup k d).isSome = true ∨
          ∃ pr ∈ rules, k ∈ (ruleSelect sorted pr).map ParsedTag.name := by
  intro rules
  induction rules with
  | nil => intro d; simp
  | cons pr prs ih =>
    intro d
    have step : (pr :: prs).foldl (applyRule sorted) d =
        prs.foldl (applyRule sorted) (applyRule sorted d pr) := rfl
    rw [step, ih, alookup_applyRule_isSome]
    constructor
    · rintro ((h | h) | ⟨pr2, hpr2, hk⟩)
      · exact Or.inl h
      · exact Or.inr ⟨pr, List.mem_cons_self pr prs, h⟩
      · exact Or.inr ⟨pr2, List.mem_cons_of_mem pr hpr2, hk⟩
    · rintro (h | ⟨pr2, hpr2, hk⟩)
      · exact Or.inl (Or.inl h)
      · rcases List.mem_cons.mp hpr2 with rfl | hpr2
        · exact Or.inl (Or.inr hk)
        · exact Or.inr ⟨pr2, hpr2, hk⟩

theorem buildPreserved_global_isSome (sorted : List ParsedTag) (g : Int) (k : String) :
    (alookup k (buildPreserved sorted g [])).isSome = true ↔
      k ∈ (pySliceTo g sorted).map ParsedTag.name := by
  unfold buildPreserved
  rw [alookup_condInsertLoop_isSome]
  simp [alookup]

theorem buildPreserved_rules_isSome (sorted : List ParsedTag) (g : Int)
    (rules : List (String × Option Int)) (hr : rules ≠ []) (k : String) :
    (alookup k (buildPreserved sorted g rules)).isSome = true ↔
      ∃ pr ∈ rules, k ∈ (ruleSelect sorted pr).map ParsedTag.name := by
  cases rules with
  | nil => exact absurd rfl hr
  | cons pr prs =>
    unfold buildPreserved
    rw [alookup_foldl_applyRule_isSome]
    simp [alookup]

/-! ### Helper lemmas about classification -/

theorem classifyOne_toParsedTag (cutoff : PyDateTime) (d : Int)
    (pres : List (String × String)) (u : ParsedTag) :
    (classifyOne cutoff d pres u).toParsedTag = u := by
  unfold classifyOne
  split <;> rfl

theorem classifyOne_of_empty {cutoff : PyDateTime} {d : Int}
    {pres : List (String × String)} {u : ParsedTag}
    (h : (classifyReasons pres cutoff d u).isEmpty = true) :
    (classifyOne cutoff d pres u).status = "TO DELETE" ∧
    (classifyOne cutoff d pres u).reason =
      (match u.last_pulled_dt with
       | none => "never pulled"
       | some _ => "not pulled since " ++ isoformat cutoff) := by
  unfold classifyOne
  rw [if_pos h]
  exact ⟨rfl, rfl⟩

theorem classifyOne_of_nonempty {cutoff : PyDateTime} {d : Int}
    {pres : List (String × String)} {u : ParsedTag}
    (h : (classifyReasons pres cutoff d u).isEmpty = false) :
    (classifyOne cutoff d pres u).status = "PRESERVED" ∧
    (classifyOne cutoff d pres u).reason = joinComma (classifyReasons pres cutoff d u) := by
  unfold classifyOne
  rw [if_neg (by simp [h])]
  exact ⟨rfl, rfl⟩

theorem classifyOne_status_cases (cutoff : PyDateTime) (d : Int)
    (pres : List (String × String)) (u : ParsedTag) :
    (classifyOne cutoff d pres u).status = "PRESERVED" ∨
    (classifyOne cutoff d pres u).status = "TO DELETE" := by
  cases h : (classifyReasons pres cutoff d u).isEmpty
  · exact Or.inl (classifyOne_of_nonempty h).1
  · exact Or.inr (classifyOne_of_empty h).1

theorem classifyReasons_eq (pres : List (String × String)) (cutoff : PyDateTime)
    (d : Int) (u : ParsedTag) :
    classifyReasons pres cutoff d u =
      (match alookup u.name pres with
       | some r => [r]
       | none => []) ++
      (if pulledRecentlyB cutoff u.last_pulled_dt then
        ["pulled within retention (" ++ toString d ++ " days)"]
       else []) := by
  unfold classifyReasons pulledRecentlyB
  cases u.last_pulled_dt with
  | none => simp
  | some p => cases hd : dtLtB p cutoff <;> simp [hd]

theorem classifyReasons_isEmpty_iff (pres : List (String × String)) (cutoff : PyDateTime)
    (d : Int) (u : ParsedTag) :
    (classifyReasons pres cutoff d u).isEmpty = true ↔
      alookup u.name pres = none ∧ pulledRecentlyB cutoff u.last_pulled_dt = false := by
  rw [classifyReasons_eq]
  cases hl : alookup u.name pres <;>
    cases hp : pulledRecentlyB cutoff u.last_pulled_dt <;> simp

theorem classifyOne_status_preserved_iff (cutoff : PyDateTime) (d : Int)
    (pres : List (String × String)) (u : ParsedTag) :
    (classifyOne cutoff d pres u).status = "PRESERVED" ↔
      (alookup u.name pres).isSome = true ∨ pulledRecentlyB cutoff u.last_pulled_dt = true := by
  cases h : (classifyReasons pres cutoff d u).isEmpty
  · rw [(classifyOne_of_nonempty h).1]
    have h2 : ¬ (alookup u.name pres = none ∧ pulledRecentlyB cutoff u.last_pulled_dt = false) := by
      intro hc
      rw [(classifyReasons_isEmpty_iff pres cutoff d u).mpr hc] at h
      cases h
    constructor
    · intro _
      by_cases ha : alookup u.name pres = none
      · cases hb : pulledRecentlyB cutoff u.last_pulled_dt
        · exact absurd ⟨ha, hb⟩ h2
        · exact Or.inr rfl
      · exact Or.inl (Option.isSome_iff_ne_none.mpr ha)
    · intro _; rfl
  · rw [(classifyOne_of_empty h).1]
    have h2 := (classifyReasons_isEmpty_iff pres cutoff d u).mp h
    constructor
    · intro hc; exact absurd hc (by decide)
    · rintro (hc | hc)
      · rw [h2.1] at hc; cases hc
      · rw [h2.2] at hc; cases hc
/-! ### Helper lemmas about parsing the raw tags -/

theorem parseRawTag_original {r : RawTag} {p : ParsedTag}
    (h : parseRawTag r = Except.ok p) : p.original = r := by
  unfold parseRawTag at h
  repeat' split at h
  all_goals try (cases h)
  all_goals rfl

theorem parseRawTag_error_eq {r : RawTag} {e : PyError}
    (h : parseRawTag r = Except.error e) : e = PyError.malformedTimestamp := by
  unfold parseRawTag at h
  repeat' split at h
  all_goals try (cases h)
  all_goals rfl

theorem parseRawTag_sentinel_none {r : RawTag} {p : ParsedTag}
    (h : parseRawTag r = Except.ok p)
    (habs : r.tag_last_pulled = none ∨ r.tag_last_pulled = some "0001-01-01T00:00:00Z") :
    p.last_pulled_dt = none := by
  unfold parseRawTag at h
  repeat' split at h
  all_goals try (cases h)
  all_goals first | rfl | simp_all

theorem parseRawTag_malformed {r : RawTag} {s : String}
    (h1 : r.last_updated = some s) (h2 : parseDockerDate s = none) :
    parseRawTag r = Except.error PyError.malformedTimestamp := by
  simp only [parseRawTag, h1, h2]

theorem parseAll_originals : ∀ {tags : List RawTag} {parsed : List ParsedTag},
    parseAll tags = Except.ok parsed → parsed.map ParsedTag.original = tags := by
  intro tags
  induction tags with
  | nil =>
    intro parsed h
    injection h with h2
    rw [← h2]
    rfl
  | cons r rs ih =>
    intro parsed h
    unfold parseAll at h
    cases hr : parseRawTag r with
    | error e => rw [hr] at h; cases h
    | ok p =>
      rw [hr] at h
      cases hrs : parseAll rs with
      | error e => rw [hrs] at h; cases h
      | ok ps =>
        rw [hrs] at h
        injection h with h2
        rw [← h2]
        simp only [List.map_cons]
        rw [parseRawTag_original hr, ih hrs]

theorem parseAll_error_of_mem : ∀ {tags : List RawTag} {raw : RawTag},
    raw ∈ tags → parseRawTag raw = Except.error PyError.malformedTimestamp →
    parseAll tags = Except.error PyError.malformedTimestamp := by
  intro tags
  induction tags with
  | nil => intro raw h; cases h
  | cons r rs ih =>
    intro raw hmem hraw
    rcases List.mem_cons.mp hmem with rfl | hmem2
    · simp only [parseAll, hraw]
    · cases hr : parseRawTag r with
      | error e =>
        have he := parseRawTag_error_eq hr
        subst he
        simp only [parseAll, hr]
      | ok p => simp only [parseAll, hr, ih hmem2 hraw]

/-! ### Helper lemmas about the full pipeline -/

set_option maxHeartbeats 1000000 in
theorem processTags_eq {now : PyDateTime} {tags : List RawTag} {d g : Int}
    {rules : List (String × Option Int)} {cutoff : PyDateTime} {parsed : List ParsedTag}
    (h1 : dtSubDays now d = some cutoff) (h2 : parseAll tags = Except.ok parsed) :
    processTags now tags d g rules =
      Except.ok ((sortByDesc ParsedTag.last_updated_dt parsed).map
        (classifyOne cutoff d
          (buildPreserved (sortByDesc ParsedTag.last_updated_dt parsed) g rules))) := by
  rw [processTags.eq_def, h1, h2]

theorem processTags_ok_elim {now : PyDateTime} {tags : List RawTag} {d g : Int}
    {rules : List (String × Option Int)} {out : List ClassifiedTag}
    (h : processTags now tags d g rules = Except.ok out) :
    ∃ cutoff parsed, dtSubDays now d = some cutoff ∧ parseAll tags = Except.ok parsed ∧
      out = (sortByDesc ParsedTag.last_updated_dt parsed).map
        (classifyOne cutoff d
          (buildPreserved (sortByDesc ParsedTag.last_updated_dt parsed) g rules)) := by
  cases hc : dtSubDays now d with
  | none => rw [processTags.eq_def, hc] at h; cases h
  | some cutoff =>
    cases hp : parseAll tags with
    | error e => rw [processTags.eq_def, hc, hp] at h; cases h
    | ok parsed =>
      rw [processTags_eq hc hp] at h
      injection h with h2
      exact ⟨cutoff, parsed, rfl, rfl, h2.symm⟩

theorem map_toParsedTag_classifyOne (cutoff : PyDateTime) (d : Int)
    (pres : List (String × String)) (l : List ParsedTag) :
    (l.map (classifyOne cutoff d pres)).map ClassifiedTag.toParsedTag = l := by
  induction l with
  | nil => rfl
  | cons u us ih => simp [classifyOne_toParsedTag, ih]

theorem mem_processTags_out {now : PyDateTime} {tags : List RawTag} {d g : Int}
    {rules : List (String × Option Int)} {out : List ClassifiedTag} {t : ClassifiedTag}
    {cutoff : PyDateTime} {parsed : List ParsedTag}
    (h1 : dtSubDays now d = some cutoff) (h2 : parseAll tags = Except.ok parsed)
    (h3 : processTags now tags d g rules = Except.ok out) (h4 : t ∈ out) :
    t = classifyOne cutoff d
          (buildPreserved (sortByDesc ParsedTag.last_updated_dt parsed) g rules)
          t.toParsedTag ∧
      t.toParsedTag ∈ sortByDesc ParsedTag.last_updated_dt parsed := by
  rw [processTags_eq h1 h2] at h3
  injection h3 with h3
  rw [← h3] at h4
  rcases List.mem_map.mp h4 with ⟨u, hu, hut⟩
  have hp : t.toParsedTag = u := by rw [← hut, classifyOne_toParsedTag]
  constructor
  · rw [hp, hut]
  · rw [hp]; exact hu

/-! ### Helper lemmas for the normalizer and the slices -/

theorem pad6Trunc_eq_spec (f : List Char) :
    pad6Trunc f = f.take 6 ++ List.replicate (6 - min 6 f.length) '0' := by
  unfold pad6Trunc
  by_cases h : f.length ≤ 6
  · have hlen : (f ++ List.replicate (6 - f.length) '0').length = 6 := by
      simp only [List.length_append, List.length_replicate]
      omega
    rw [List.take_of_length_le (le_of_eq hlen), List.take_of_length_le h]
    have he : 6 - f.length = 6 - min 6 f.length := by omega
    rw [he]
  · push_neg at h
    have h2 : 6 - f.length = 0 := by omega
    have h3 : 6 - min 6 f.length = 0 := by omega
    rw [h2, h3]
    simp

theorem dockerNormalize_eq_spec (l : List Char) : dockerNormalize l = specNormalize l := by
  simp only [dockerNormalize, specNormalize]
  by_cases h : (stripZ l).contains '.'
  · rw [if_pos h, if_pos h, pad6Trunc_eq_spec]
  · rw [if_neg h, if_neg h]
    exact rfl

theorem pySliceTo_length_of_nonneg {n : Int} (hn : 0 ≤ n) (l : List α) :
    (pySliceTo n l).length = min n.toNat l.length := by
  unfold pySliceTo
  rw [if_pos hn]
  exact List.length_take _ _

theorem pySliceTo_zero (l : List α) : pySliceTo 0 l = [] := by
  simp [pySliceTo]

theorem pySliceTo_all {n : Int} (l : List α) (hl : (l.length : Int) ≤ n) :
    pySliceTo n l = l := by
  unfold pySliceTo
  have h0 : 0 ≤ n := le_trans (Int.natCast_nonneg l.length) hl
  rw [if_pos h0]
  apply List.take_of_length_le
  omega

/-! ### Claim theorems -/

/-- C6: for every timestamp string, the instant `parse_docker_date` produces
is the calendar parse of the string normalized exactly as the spec says:
strip the trailing zone marker; when a fractional-seconds component is
present, truncate it beyond 6 digits and right-pad it with zeros to exactly
6 digits (sub-microsecond digits discarded, never rounded); when absent,
treat fractional seconds as zero. `specNormalize` is written from the
spec's words, `dockerNormalize` from the source. -/
theorem timestamp_normalizer_follows_spec (s : String) :
    dockerNormalize s.data = specNormalize s.data ∧
    parseDockerDate s = fromIso (specNormalize s.data) :=
  ⟨dockerNormalize_eq_spec s.data, by
    unfold parseDockerDate
    rw [dockerNormalize_eq_spec]⟩

/-- C9: if any tag of the input list carries a `last_updated` string that
does not parse, `process_tags` raises for the whole list (modelled as
`Except.error PyError.malformedTimestamp`, provided the retention cutoff
itself is representable), and no classified output exists for the
repository. -/
theorem malformed_timestamp_aborts
    (now : PyDateTime) (tags : List RawTag) (d g : Int)
    (rules : List (String × Option Int)) (cutoff : PyDateTime)
    (raw : RawTag) (s : String)
    (h1 : dtSubDays now d = some cutoff)
    (h2 : raw ∈ tags) (h3 : raw.last_updated = some s)
    (h4 : parseDockerDate s = none) :
    processTags now tags d g rules = Except.error PyError.malformedTimestamp ∧
    ∀ out : List ClassifiedTag, processTags now tags d g rules ≠ Except.ok out := by
  have hperr := parseAll_error_of_mem h2 (parseRawTag_malformed h3 h4)
  have hmain : processTags now tags d g rules = Except.error PyError.malformedTimestamp := by
    rw [processTags.eq_def, h1, hperr]
  refine ⟨hmain, fun out hok => ?_⟩
  rw [hmain] at hok
  cases hok

/-- C10: a prefix rule with a numeric count never makes classification fail,
and (together with the other configured rules) it exempts by ranking exactly
the named top slice of the tags matching its prefix in the sorted order:
`pySliceTo` of the matching list, whose length is `min N (number matching)`
for a non-negative count N; a count of zero selects nothing and a count at
least the number of matching tags selects all of them. -/
theorem prefix_rule_counts
    (now : PyDateTime) (tags : List RawTag) (d g : Int)
    (rules : List (String × Option Int)) (cutoff : PyDateTime) (parsed : List ParsedTag)
    (h1 : dtSubDays now d = some cutoff) (h2 : parseAll tags = Except.ok parsed) :
    (∃ out, processTags now tags d g rules = Except.ok out) ∧
    (rules ≠ [] → ∀ k : String,
      (alookup k (buildPreserved (sortByDesc ParsedTag.last_updated_dt parsed) g rules)).isSome
          = true ↔
        ∃ pr ∈ rules,
          k ∈ (ruleSelect (sortByDesc ParsedTag.last_updated_dt parsed) pr).map
                ParsedTag.name) ∧
    (∀ (n : Int) (l : List ParsedTag), 0 ≤ n →
      (pySliceTo n l).length = min n.toNat l.length) ∧
    (∀ l : List ParsedTag, pySliceTo 0 l = []) ∧
    (∀ (n : Int) (l : List ParsedTag), (l.length : Int) ≤ n → pySliceTo n l = l) := by
  refine ⟨⟨_, processTags_eq h1 h2⟩, ?_, ?_, ?_, ?_⟩
  · intro hr k
    exact buildPreserved_rules_isSome _ g rules hr k
  · intro n l hn
    exact pySliceTo_length_of_nonneg hn l
  · intro l
    exact pySliceTo_zero l
  · intro n l hl
    exact pySliceTo_all l hl

/-- C5: for a successful run, every input tag appears in the output exactly
once (the outputs' original records are a permutation of the input list),
and every output entry's status is exactly one of "PRESERVED" or
"TO DELETE" — never both and never neither. -/
theorem classify_partition
    (now : PyDateTime) (tags : List RawTag) (d g : Int)
    (rules : List (String × Option Int)) (out : List ClassifiedTag)
    (h : processTags now tags d g rules = Except.ok out) :
    List.Perm (out.map (fun t => t.original)) tags ∧
    ∀ t ∈ out, (t.status = "PRESERVED" ∨ t.status = "TO DELETE") ∧
      ¬(t.status = "PRESERVED" ∧ t.status = "TO DELETE") := by
  rcases processTags_ok_elim h with ⟨cutoff, parsed, hc, hp, hout⟩
  constructor
  · have e1 : out.map (fun t => t.original) =
        (sortByDesc ParsedTag.last_updated_dt parsed).map (fun u => u.original) := by
      rw [hout, List.map_map]
      apply List.map_congr_left
      intro u _
      show ((classifyOne _ _ _ u).toParsedTag).original = u.original
      rw [classifyOne_toParsedTag]
    rw [e1]
    have e2 := (sortByDesc_perm ParsedTag.last_updated_dt parsed).map (fun u => u.original)
    have e3 : parsed.map (fun u => u.original) = tags := parseAll_originals hp
    rw [e3] at e2
    exact e2
  · intro t ht
    rw [hout] at ht
    rcases List.mem_map.mp ht with ⟨u, _, hut⟩
    constructor
    · rw [← hut]
      exact classifyOne_status_cases _ _ _ u
    · rintro ⟨hp1, hd1⟩
      exact absurd (hp1.symm.trans hd1) (by decide)

/-- C1 counterexample: the source has no critical-name rule. With a prefix
rule configured that `latest` does not match, an old, never-pulled tag named
`latest` is classified "TO DELETE", although the claim says any
critically-named tag is always PRESERVED. -/
theorem critical_name_counterexample :
    isCriticalName "latest" = true ∧
    (processTags ⟨2024, 3, 15, 0, 0, 0, 0⟩
        [⟨"latest", some "2020-01-01T00:00:00Z", none⟩] 90 10
        [("release-", some 1)]).toOption.map
      (List.map (fun t => (t.name, t.status))) =
      some [("latest", "TO DELETE")] :=
  ⟨rfl, rfl⟩

/-- C1 (amended): the code applies no critical-name rule. A tag named
`latest`, `prod`, or `production` (case-insensitively) receives no special
treatment: it is PRESERVED exactly when the ranking rule or the
recency-of-pull rule exempts it, like any other tag. -/
theorem critical_name_no_exemption
    (now : PyDateTime) (tags : List RawTag) (d g : Int)
    (rules : List (String × Option Int)) (out : List ClassifiedTag)
    (parsed : List ParsedTag) (cutoff : PyDateTime) (t : ClassifiedTag)
    (h1 : dtSubDays now d = some cutoff) (h2 : parseAll tags = Except.ok parsed)
    (h3 : processTags now tags d g rules = Except.ok out) (h4 : t ∈ out)
    (_h5 : isCriticalName t.name = true) :
    t.status = "PRESERVED" ↔
      (alookup t.name
        (buildPreserved (sortByDesc ParsedTag.last_updated_dt parsed) g rules)).isSome = true ∨
      pulledRecentlyB cutoff t.last_pulled_dt = true := by
  rcases mem_processTags_out h1 h2 h3 h4 with ⟨ht, _⟩
  have hst : t.status =
      (classifyOne cutoff d
        (buildPreserved (sortByDesc ParsedTag.last_updated_dt parsed) g rules)
        t.toParsedTag).status := congrArg ClassifiedTag.status ht
  rw [hst]
  exact classifyOne_status_preserved_iff cutoff d _ t.toParsedTag

/-- C2 counterexample: a critically-named tag (`latest`) exempted by the
recency-of-pull rule carries only the recency description in its reason; no
critical-name rule description appears (none exists in the code), although
the claim says the reason of a tag matching several rules lists the
critical-name description first. -/
theorem reason_concatenation_counterexample :
    isCriticalName "latest" = true ∧
    (processTags ⟨2024, 3, 15, 0, 0, 0, 0⟩
        [⟨"latest", some "2020-01-01T00:00:00Z", some "2024-03-10T00:00:00Z"⟩] 90 10
        [("release-", some 1)]).toOption.map
      (List.map (fun t => (t.name, t.status, t.reason))) =
      some [("latest", "PRESERVED", "pulled within retention (90 days)")] :=
  ⟨rfl, rfl⟩

/-- C2 (amended): for every preserved tag, `reason` is the comma-joined,
ordered concatenation of the ranking rule's description (exactly when the
tag's name is in the preserved-reasons dictionary) followed by the
recency-of-pull description (exactly when that rule matched), and a tag is
PRESERVED exactly when that list is nonempty. No critical-name component
exists in the code. -/
theorem preserved_reason_concatenation
    (now : PyDateTime) (tags : List RawTag) (d g : Int)
    (rules : List (String × Option Int)) (out : List ClassifiedTag)
    (parsed : List ParsedTag) (cutoff : PyDateTime) (t : ClassifiedTag)
    (h1 : dtSubDays now d = some cutoff) (h2 : parseAll tags = Except.ok parsed)
    (h3 : processTags now tags d g rules = Except.ok out) (h4 : t ∈ out) :
    (t.status = "PRESERVED" →
      t.reason = joinComma
        ((match alookup t.name
            (buildPreserved (sortByDesc ParsedTag.last_updated_dt parsed) g rules) with
          | some r => [r]
          | none => []) ++
         (if pulledRecentlyB cutoff t.last_pulled_dt then
            ["pulled within retention (" ++ toString d ++ " days)"]
          else []))) ∧
    (t.status = "PRESERVED" ↔
      ((match alookup t.name
          (buildPreserved (sortByDesc ParsedTag.last_updated_dt parsed) g rules) with
        | some r => [r]
        | none => []) ++
       (if pulledRecentlyB cutoff t.last_pulled_dt then
          ["pulled within retention (" ++ toString d ++ " days)"]
        else [])) ≠ []) := by
  rcases mem_processTags_out h1 h2 h3 h4 with ⟨ht, _⟩
  have hst : t.status =
      (classifyOne cutoff d
        (buildPreserved (sortByDesc ParsedTag.last_updated_dt parsed) g rules)
        t.toParsedTag).status := congrArg ClassifiedTag.status ht
  have hre : t.reason =
      (classifyOne cutoff d
        (buildPreserved (sortByDesc ParsedTag.last_updated_dt parsed) g rules)
        t.toParsedTag).reason := congrArg ClassifiedTag.reason ht
  have hcr := classifyReasons_eq
    (buildPreserved (sortByDesc ParsedTag.last_updated_dt parsed) g rules) cutoff d
    t.toParsedTag
  rw [hst, hre, ← hcr]
  cases hem : (classifyReasons
      (buildPreserved (sortByDesc ParsedTag.last_updated_dt parsed) g rules) cutoff d
      t.toParsedTag).isEmpty
  · refine ⟨fun _ => (classifyOne_of_nonempty hem).2, ?_⟩
    rw [(classifyOne_of_nonempty hem).1]
    constructor
    · intro _ hnil
      rw [hnil] at hem
      cases hem
    · intro _
      rfl
  · have hnil : classifyReasons
        (buildPreserved (sortByDesc ParsedTag.last_updated_dt parsed) g rules) cutoff d
        t.toParsedTag = [] := by
      cases hx : classifyReasons
          (buildPreserved (sortByDesc ParsedTag.last_updated_dt parsed) g rules) cutoff d
          t.toParsedTag
      · rfl
      · rw [hx] at hem
        cases hem
    rw [(classifyOne_of_empty hem).1]
    constructor
    · intro hcon
      exact absurd hcon (by decide)
    · constructor
      · intro hcon
        exact absurd hcon (by decide)
      · intro hne
        exact absurd hnil hne

/-- C3: a tag exempted by no rule is classified "TO DELETE", with reason
exactly "never pulled" when its pull instant is absent and
"not pulled since <cutoff>" otherwise, where the cutoff is
`now - retention_days`; a missing pull timestamp and the zero-value sentinel
both parse to an absent pull instant. -/
theorem to_delete_reason
    (now : PyDateTime) (tags : List RawTag) (d g : Int)
    (rules : List (String × Option Int)) (out : List ClassifiedTag)
    (parsed : List ParsedTag) (cutoff : PyDateTime) (t : ClassifiedTag)
    (h1 : dtSubDays now d = some cutoff) (h2 : parseAll tags = Except.ok parsed)
    (h3 : processTags now tags d g rules = Except.ok out) (h4 : t ∈ out)
    (h5 : alookup t.name
      (buildPreserved (sortByDesc ParsedTag.last_updated_dt parsed) g rules) = none)
    (h6 : pulledRecentlyB cutoff t.last_pulled_dt = false) :
    t.status = "TO DELETE" ∧
    (t.last_pulled_dt = none → t.reason = "never pulled") ∧
    (∀ q : PyDateTime, t.last_pulled_dt = some q →
      t.reason = "not pulled since " ++ isoformat cutoff) ∧
    (∀ (r : RawTag) (pt : ParsedTag), parseRawTag r = Except.ok pt →
      (r.tag_last_pulled = none ∨ r.tag_last_pulled = some "0001-01-01T00:00:00Z") →
      pt.last_pulled_dt = none) := by
  rcases mem_processTags_out h1 h2 h3 h4 with ⟨ht, _⟩
  have hst : t.status =
      (classifyOne cutoff d
        (buildPreserved (sortByDesc ParsedTag.last_updated_dt parsed) g rules)
        t.toParsedTag).status := congrArg ClassifiedTag.status ht
  have hre : t.reason =
      (classifyOne cutoff d
        (buildPreserved (sortByDesc ParsedTag.last_updated_dt parsed) g rules)
        t.toParsedTag).reason := congrArg ClassifiedTag.reason ht
  have hem : (classifyReasons
      (buildPreserved (sortByDesc ParsedTag.last_updated_dt parsed) g rules) cutoff d
      t.toParsedTag).isEmpty = true :=
    (classifyReasons_isEmpty_iff _ cutoff d t.toParsedTag).mpr ⟨h5, h6⟩
  refine ⟨?_, ?_, ?_, ?_⟩
  · rw [hst]
    exact (classifyOne_of_empty hem).1
  · intro hq
    rw [hre, (classifyOne_of_empty hem).2, hq]
  · intro q hq
    rw [hre, (classifyOne_of_empty hem).2, hq]
  · intro r pt hok habs
    exact parseRawTag_sentinel_none hok habs

/-- C4: the classified output is exactly the parsed input sorted by
normalized `last_updated` descending; the sort is a permutation of the
input, the output is pairwise non-increasing on `last_updated`, and the sort
is stable: sorting the index-tagged list puts any two entries with equal
timestamps in strictly increasing input-index order. -/
theorem classify_sorted_stable
    (now : PyDateTime) (tags : List RawTag) (d g : Int)
    (rules : List (String × Option Int)) (out : List ClassifiedTag)
    (parsed : List ParsedTag)
    (h2 : parseAll tags = Except.ok parsed)
    (h3 : processTags now tags d g rules = Except.ok out) :
    out.map ClassifiedTag.toParsedTag = sortByDesc ParsedTag.last_updated_dt parsed ∧
    List.Perm (sortByDesc ParsedTag.last_updated_dt parsed) parsed ∧
    List.Pairwise (fun a b => dtLtB a.last_updated_dt b.last_updated_dt = false) out ∧
    (sortByDesc (fun x => ParsedTag.last_updated_dt x.2)
        (List.enumFrom 0 parsed)).map Prod.snd =
      sortByDesc ParsedTag.last_updated_dt parsed ∧
    List.Pairwise (fun x y => dtLtB y.2.last_updated_dt x.2.last_updated_dt = true ∨
        (x.2.last_updated_dt = y.2.last_updated_dt ∧ x.1 < y.1))
      (sortByDesc (fun x => ParsedTag.last_updated_dt x.2) (List.enumFrom 0 parsed)) := by
  rcases processTags_ok_elim h3 with ⟨cutoff, parsed2, hc, hp2, hout⟩
  have hpp : parsed2 = parsed := by
    rw [hp2] at h2
    injection h2
  subst hpp
  refine ⟨?_, sortByDesc_perm _ _, ?_, ?_, ?_⟩
  · rw [hout]
    exact map_toParsedTag_classifyOne _ _ _ _
  · rw [hout]
    refine List.Pairwise.map _ ?_ (sortByDesc_pairwise ParsedTag.last_updated_dt parsed2)
    intro a b hr
    show dtLtB ((classifyOne _ _ _ a).toParsedTag).last_updated_dt
        ((classifyOne _ _ _ b).toParsedTag).last_updated_dt = false
    rw [classifyOne_toParsedTag, classifyOne_toParsedTag]
    exact hr
  · have h := sortByDesc_map_snd ParsedTag.last_updated_dt (List.enumFrom 0 parsed2)
    rw [enumFrom_map_snd parsed2 0] at h
    exact h
  · exact sortByDesc_stable ParsedTag.last_updated_dt _ (enumFrom_pairwise parsed2 0)

/-- C7: exactly one ranking rule is in force. With at least one prefix rule
the global newest-N count is irrelevant to the whole output (the prefix
rules replace the global rule); with no prefix rule every tag of the global
top slice of the sorted list is PRESERVED; and the recency-of-pull rule is
active in both configurations. -/
theorem ranking_rule_exclusive
    (now : PyDateTime) (tags : List RawTag) (d g1 g2 : Int)
    (rules : List (String × Option Int)) :
    (rules ≠ [] → processTags now tags d g1 rules = processTags now tags d g2 rules) ∧
    (∀ (out : List ClassifiedTag) (parsed : List ParsedTag) (t : ClassifiedTag),
      parseAll tags = Except.ok parsed →
      processTags now tags d g1 [] = Except.ok out → t ∈ out →
      t.name ∈ (pySliceTo g1 (sortByDesc ParsedTag.last_updated_dt parsed)).map
        ParsedTag.name →
      t.status = "PRESERVED") ∧
    (∀ (out : List ClassifiedTag) (cutoff : PyDateTime) (t : ClassifiedTag)
        (q : PyDateTime),
      dtSubDays now d = some cutoff →
      processTags now tags d g1 rules = Except.ok out → t ∈ out →
      t.last_pulled_dt = some q → dtLtB q cutoff = false →
      t.status = "PRESERVED") := by
  refine ⟨?_, ?_, ?_⟩
  · intro hr
    cases rules with
    | nil => exact absurd rfl hr
    | cons r rs =>
      cases hc : dtSubDays now d with
      | none => rw [processTags.eq_def, processTags.eq_def, hc]
      | some cutoff =>
        cases hp : parseAll tags with
        | error e => rw [processTags.eq_def, processTags.eq_def, hc, hp]
        | ok parsed =>
          rw [processTags_eq hc hp, processTags_eq hc hp]
          rfl
  · intro out parsed t hp h3 ht hmem
    rcases processTags_ok_elim h3 with ⟨cutoff, parsed2, hc, hp2, _⟩
    have hpp : parsed2 = parsed := by
      rw [hp2] at hp
      injection hp
    subst hpp
    rcases mem_processTags_out hc hp2 h3 ht with ⟨htc, _⟩
    have hst : t.status =
        (classifyOne cutoff d
          (buildPreserved (sortByDesc ParsedTag.last_updated_dt parsed2) g1 [])
          t.toParsedTag).status := congrArg ClassifiedTag.status htc
    rw [hst]
    apply (classifyOne_status_preserved_iff cutoff d _ t.toParsedTag).mpr
    exact Or.inl ((buildPreserved_global_isSome _ g1 t.name).mpr hmem)
  · intro out cutoff t q hc2 h3 ht hq hlt
    rcases processTags_ok_elim h3 with ⟨cutoff2, parsed2, hc, hp2, _⟩
    have hcc : cutoff2 = cutoff := by
      rw [hc] at hc2
      injection hc2
    subst hcc
    rcases mem_processTags_out hc hp2 h3 ht with ⟨htc, _⟩
    have hst : t.status =
        (classifyOne cutoff2 d
          (buildPreserved (sortByDesc ParsedTag.last_updated_dt parsed2) g1 rules)
          t.toParsedTag).status := congrArg ClassifiedTag.status htc
    rw [hst]
    apply (classifyOne_status_preserved_iff cutoff2 d _ t.toParsedTag).mpr
    refine Or.inr ?_
    show pulledRecentlyB cutoff2 t.last_pulled_dt = true
    rw [hq]
    simp [pulledRecentlyB, hlt]

/-- C8: a tag whose pull instant exists and is on or after the cutoff
`now - retention_days` is PRESERVED regardless of its age and of the ranking
rule, and its reason ends with the recency description
"pulled within retention (<retention_days> days)". -/
theorem recency_of_pull_preserves
    (now : PyDateTime) (tags : List RawTag) (d g : Int)
    (rules : List (String × Option Int)) (out : List ClassifiedTag)
    (cutoff : PyDateTime) (t : ClassifiedTag) (q : PyDateTime)
    (h1 : dtSubDays now d = some cutoff)
    (h3 : processTags now tags d g rules = Except.ok out) (h4 : t ∈ out)
    (h5 : t.last_pulled_dt = some q) (h6 : dtLtB q cutoff = false) :
    t.status = "PRESERVED" ∧
    ∃ s0 : String,
      t.reason = s0 ++ ("pulled within retention (" ++ toString d ++ " days)") := by
  rcases processTags_ok_elim h3 with ⟨cutoff2, parsed, hc, hp, _⟩
  have hcc : cutoff2 = cutoff := by
    rw [hc] at h1
    injection h1
  subst hcc
  rcases mem_processTags_out hc hp h3 h4 with ⟨htc, _⟩
  have hst : t.status =
      (classifyOne cutoff2 d
        (buildPreserved (sortByDesc ParsedTag.last_updated_dt parsed) g rules)
        t.toParsedTag).status := congrArg ClassifiedTag.status htc
  have hre : t.reason =
      (classifyOne cutoff2 d
        (buildPreserved (sortByDesc ParsedTag.last_updated_dt parsed) g rules)
        t.toParsedTag).reason := congrArg ClassifiedTag.reason htc
  have hrecent : pulledRecentlyB cutoff2 t.last_pulled_dt = true := by
    rw [h5]
    simp [pulledRecentlyB, h6]
  have hcr := classifyReasons_eq
    (buildPreserved (sortByDesc ParsedTag.last_updated_dt parsed) g rules) cutoff2 d
    t.toParsedTag
  rw [hrecent, if_pos rfl] at hcr
  constructor
  · rw [hst]
    exact (classifyOne_status_preserved_iff cutoff2 d _ t.toParsedTag).mpr
      (Or.inr hrecent)
  · cases hal : alookup t.name
        (buildPreserved (sortByDesc ParsedTag.last_updated_dt parsed) g rules) with
    | none =>
      rw [hal] at hcr
      have hem : (classifyReasons
          (buildPreserved (sortByDesc ParsedTag.last_updated_dt parsed) g rules) cutoff2 d
          t.toParsedTag).isEmpty = false := by
        rw [hcr]
        rfl
      refine ⟨"", ?_⟩
      rw [hre, (classifyOne_of_nonempty hem).2, hcr]
      exact rfl
    | some r =>
      rw [hal] at hcr
      have hem : (classifyReasons
          (buildPreserved (sortByDesc ParsedTag.last_updated_dt parsed) g rules) cutoff2 d
          t.toParsedTag).isEmpty = false := by
        rw [hcr]
        rfl
      refine ⟨r ++ ", ", ?_⟩
      rw [hre, (classifyOne_of_nonempty hem).2, hcr]
      show r ++ ", " ++ ("pulled within retention (" ++ toString d ++ " days)") =
        r ++ ", " ++ ("pulled within retention (" ++ toString d ++ " days)")
      rfl

/-! ### Witnesses: each hypothesised claim theorem applied at concrete data -/

/-- Witness for `critical_name_no_exemption` at a tag named `latest`,
exempted by the global ranking rule. -/
theorem critical_name_no_exemption_witness :
    dtSubDays nowW 90 = some cutoffW ∧
    parseAll [rawLatest] = Except.ok [parsedLatest] ∧
    processTags nowW [rawLatest] 90 10 [] = Except.ok [outLatest] ∧
    outLatest ∈ [outLatest] ∧
    isCriticalName outLatest.name = true ∧
    (outLatest.status = "PRESERVED" ↔
      (alookup outLatest.name
        (buildPreserved (sortByDesc ParsedTag.last_updated_dt [parsedLatest]) 10 [])).isSome
          = true ∨
      pulledRecentlyB cutoffW outLatest.last_pulled_dt = true) :=
  ⟨rfl, rfl, rfl, List.Mem.head _, rfl,
    critical_name_no_exemption nowW [rawLatest] 90 10 [] [outLatest] [parsedLatest] cutoffW
      outLatest rfl rfl rfl (List.Mem.head _) rfl⟩

/-- Witness for `preserved_reason_concatenation` at a tag exempted by both
the ranking rule and the recency rule: the reason carries both
descriptions in order. -/
theorem preserved_reason_concatenation_witness :
    dtSubDays nowW 90 = some cutoffW ∧
    parseAll [rawApp] = Except.ok [parsedApp] ∧
    processTags nowW [rawApp] 90 10 [] = Except.ok [outApp] ∧
    outApp ∈ [outApp] ∧
    ((outApp.status = "PRESERVED" →
      outApp.reason = joinComma
        ((match alookup outApp.name
            (buildPreserved (sortByDesc ParsedTag.last_updated_dt [parsedApp]) 10 []) with
          | some r => [r]
          | none => []) ++
         (if pulledRecentlyB cutoffW outApp.last_pulled_dt then
            ["pulled within retention (" ++ toString (90 : Int) ++ " days)"]
          else []))) ∧
     (outApp.status = "PRESERVED" ↔
      ((match alookup outApp.name
          (buildPreserved (sortByDesc ParsedTag.last_updated_dt [parsedApp]) 10 []) with
        | some r => [r]
        | none => []) ++
       (if pulledRecentlyB cutoffW outApp.last_pulled_dt then
          ["pulled within retention (" ++ toString (90 : Int) ++ " days)"]
        else [])) ≠ [])) :=
  ⟨rfl, rfl, rfl, List.Mem.head _,
    preserved_reason_concatenation nowW [rawApp] 90 10 [] [outApp] [parsedApp] cutoffW
      outApp rfl rfl rfl (List.Mem.head _)⟩

/-- Witness for `to_delete_reason`, applied both to a never-pulled tag
(reason exactly "never pulled") and to a long-unpulled tag (reason
"not pulled since <cutoff>"). -/
theorem to_delete_reason_witness :
    dtSubDays nowW 90 = some cutoffW ∧
    parseAll [rawOld1, rawOld2] = Except.ok [parsedOld1, parsedOld2] ∧
    processTags nowW [rawOld1, rawOld2] 90 10 [("x", some 1)] =
      Except.ok [outOld1, outOld2] ∧
    outOld1 ∈ [outOld1, outOld2] ∧
    outOld2 ∈ [outOld1, outOld2] ∧
    (outOld1.status = "TO DELETE" ∧
     (outOld1.last_pulled_dt = none → outOld1.reason = "never pulled") ∧
     (∀ q : PyDateTime, outOld1.last_pulled_dt = some q →
       outOld1.reason = "not pulled since " ++ isoformat cutoffW) ∧
     (∀ (r : RawTag) (pt : ParsedTag), parseRawTag r = Except.ok pt →
       (r.tag_last_pulled = none ∨ r.tag_last_pulled = some "0001-01-01T00:00:00Z") →
       pt.last_pulled_dt = none)) ∧
    (outOld2.status = "TO DELETE" ∧
     (outOld2.last_pulled_dt = none → outOld2.reason = "never pulled") ∧
     (∀ q : PyDateTime, outOld2.last_pulled_dt = some q →
       outOld2.reason = "not pulled since " ++ isoformat cutoffW) ∧
     (∀ (r : RawTag) (pt : ParsedTag), parseRawTag r = Except.ok pt →
       (r.tag_last_pulled = none ∨ r.tag_last_pulled = some "0001-01-01T00:00:00Z") →
       pt.last_pulled_dt = none)) :=
  ⟨rfl, rfl, rfl, List.Mem.head _, List.Mem.tail _ (List.Mem.head _),
    to_delete_reason nowW [rawOld1, rawOld2] 90 10 [("x", some 1)] [outOld1, outOld2]
      [parsedOld1, parsedOld2] cutoffW outOld1 rfl rfl rfl (List.Mem.head _) rfl rfl,
    to_delete_reason nowW [rawOld1, rawOld2] 90 10 [("x", some 1)] [outOld1, outOld2]
      [parsedOld1, parsedOld2] cutoffW outOld2 rfl rfl rfl
      (List.Mem.tail _ (List.Mem.head _)) rfl rfl⟩

/-- Witness for `classify_sorted_stable` on three tags, two of which tie on
`last_updated`: the newest comes first and the tie keeps input order. -/
theorem classify_sorted_stable_witness :
    parseAll [rawA, rawB, rawC] = Except.ok [parsedA, parsedB, parsedC] ∧
    processTags nowW [rawA, rawB, rawC] 90 0 [] = Except.ok [outC, outA, outB] ∧
    (([outC, outA, outB] : List ClassifiedTag).map ClassifiedTag.toParsedTag =
        sortByDesc ParsedTag.last_updated_dt [parsedA, parsedB, parsedC] ∧
     List.Perm (sortByDesc ParsedTag.last_updated_dt [parsedA, parsedB, parsedC])
       [parsedA, parsedB, parsedC] ∧
     List.Pairwise (fun a b => dtLtB a.last_updated_dt b.last_updated_dt = false)
       [outC, outA, outB] ∧
     (sortByDesc (fun x => ParsedTag.last_updated_dt x.2)
         (List.enumFrom 0 [parsedA, parsedB, parsedC])).map Prod.snd =
       sortByDesc ParsedTag.last_updated_dt [parsedA, parsedB, parsedC] ∧
     List.Pairwise (fun x y => dtLtB y.2.last_updated_dt x.2.last_updated_dt = true ∨
         (x.2.last_updated_dt = y.2.last_updated_dt ∧ x.1 < y.1))
       (sortByDesc (fun x => ParsedTag.last_updated_dt x.2)
         (List.enumFrom 0 [parsedA, parsedB, parsedC]))) :=
  ⟨rfl, rfl,
    classify_sorted_stable nowW [rawA, rawB, rawC] 90 0 [] [outC, outA, outB]
      [parsedA, parsedB, parsedC] rfl rfl⟩

/-- Witness for `classify_partition` (one tag preserved, one stale tag with
the sentinel pull timestamp deleted). -/
theorem classify_partition_witness :
    processTags nowW [rawX, rawY] 90 1 [] = Except.ok [outX, outY] ∧
    (List.Perm (([outX, outY] : List ClassifiedTag).map (fun t => t.original))
        [rawX, rawY] ∧
     ∀ t ∈ ([outX, outY] : List ClassifiedTag),
       (t.status = "PRESERVED" ∨ t.status = "TO DELETE") ∧
       ¬(t.status = "PRESERVED" ∧ t.status = "TO DELETE")) :=
  ⟨rfl, classify_partition nowW [rawX, rawY] 90 1 [] [outX, outY] rfl⟩

/-- Witness for `ranking_rule_exclusive`: with a prefix rule the global
count is irrelevant; without one the global top slice is preserved; a
recently pulled tag is preserved under a prefix rule it does not match. -/
theorem ranking_rule_exclusive_witness :
    processTags nowW [rawN] 90 3 [("v", some 1)] =
      processTags nowW [rawN] 90 7 [("v", some 1)] ∧
    outNTop3.status = "PRESERVED" ∧
    outAged.status = "PRESERVED" :=
  ⟨(ranking_rule_exclusive nowW [rawN] 90 3 7 [("v", some 1)]).1 (List.cons_ne_nil _ _),
   (ranking_rule_exclusive nowW [rawN] 90 3 7 [("v", some 1)]).2.1 [outNTop3] [parsedN]
     outNTop3 rfl rfl (List.Mem.head _) (by decide),
   (ranking_rule_exclusive nowW [rawAged] 90 3 7 [("v", some 1)]).2.2 [outAged] cutoffW
     outAged ⟨2024, 3, 10, 0, 0, 0, 0⟩ rfl rfl (List.Mem.head _) rfl rfl⟩

/-- Witness for `recency_of_pull_preserves` at a tag 200+ days old but
pulled five days before `nowW`, with a prefix rule it does not match. -/
theorem recency_of_pull_preserves_witness :
    dtSubDays nowW 90 = some cutoffW ∧
    processTags nowW [rawAged] 90 10 [("v", some 1)] = Except.ok [outAged] ∧
    outAged ∈ [outAged] ∧
    outAged.last_pulled_dt = some ⟨2024, 3, 10, 0, 0, 0, 0⟩ ∧
    dtLtB ⟨2024, 3, 10, 0, 0, 0, 0⟩ cutoffW = false ∧
    (outAged.status = "PRESERVED" ∧
     ∃ s0 : String, outAged.reason =
       s0 ++ ("pulled within retention (" ++ toString (90 : Int) ++ " days)")) :=
  ⟨rfl, rfl, List.Mem.head _, rfl, rfl,
   recency_of_pull_preserves nowW [rawAged] 90 10 [("v", some 1)] [outAged] cutoffW outAged
     ⟨2024, 3, 10, 0, 0, 0, 0⟩ rfl rfl (List.Mem.head _) rfl rfl⟩

/-- Witness for `malformed_timestamp_aborts` at a tag whose `last_updated`
is not a timestamp. -/
theorem malformed_timestamp_aborts_witness :
    dtSubDays nowW 90 = some cutoffW ∧
    rawBad ∈ [rawBad] ∧
    rawBad.last_updated = some "not-a-date" ∧
    parseDockerDate "not-a-date" = none ∧
    (processTags nowW [rawBad] 90 10 [] = Except.error PyError.malformedTimestamp ∧
     ∀ out : List ClassifiedTag, processTags nowW [rawBad] 90 10 [] ≠ Except.ok out) :=
  ⟨rfl, List.Mem.head _, rfl, rfl,
   malformed_timestamp_aborts nowW [rawBad] 90 10 [] cutoffW rawBad "not-a-date"
     rfl (List.Mem.head _) rfl rfl⟩

/-- Witness for `prefix_rule_counts` with a rule whose count (5) exceeds the
number of matching tags (2). -/
theorem prefix_rule_counts_witness :
    dtSubDays nowW 90 = some cutoffW ∧
    parseAll [rawPr1, rawPr2, rawZz] = Except.ok [parsedPr1, parsedPr2, parsedZz] ∧
    ((∃ out, processTags nowW [rawPr1, rawPr2, rawZz] 90 10 [("pr-", some 5)] =
        Except.ok out) ∧
     ([("pr-", some 5)] ≠ ([] : List (String × Option Int)) → ∀ k : String,
       (alookup k (buildPreserved
           (sortByDesc ParsedTag.last_updated_dt [parsedPr1, parsedPr2, parsedZz]) 10
           [("pr-", some 5)])).isSome = true ↔
         ∃ pr ∈ [(("pr-" : String), some (5 : Int))],
           k ∈ (ruleSelect
                 (sortByDesc ParsedTag.last_updated_dt [parsedPr1, parsedPr2, parsedZz])
                 pr).map ParsedTag.name) ∧
     (∀ (n : Int) (l : List ParsedTag), 0 ≤ n →
       (pySliceTo n l).length = min n.toNat l.length) ∧
     (∀ l : List ParsedTag, pySliceTo 0 l = []) ∧
     (∀ (n : Int) (l : List ParsedTag), (l.length : Int) ≤ n → pySliceTo n l = l)) :=
  ⟨rfl, rfl,
   prefix_rule_counts nowW [rawPr1, rawPr2, rawZz] 90 10 [("pr-", some 5)] cutoffW
     [parsedPr1, parsedPr2, parsedZz] rfl rfl⟩
